import Mathlib

/-!
Verification development for the lsp-mcp tool layer (src/tools/index.ts) and,
where that file delegates into the protocol client adapter (src/lspClient.ts,
absent from the sources at hand), for a model of the adapter built from the
specification.  TypeScript handlers are embedded as pure Lean functions over an
explicit tool state; each handler returns its result (or thrown error message),
the tool state after the call, and the ordered trace of LSP-client operations it
performed.
-/

namespace LspMcp

/-- LSP position as built by the handlers (`{ line, character }`).  The
handlers compute the fields by integer subtraction from caller input, so the
fields are `Int`. -/
structure Position where
  line : Int
  character : Int
deriving DecidableEq

/-- LSP range as built by the `get_code_actions` handler
(`{ start, end }`; the `end` field is named `endPos` since `end` is a Lean
keyword). -/
structure Range where
  start : Position
  endPos : Position
deriving DecidableEq

/-- A diagnostic as stored in the diagnostics cache (spec §3:
`Diagnostic{range, severity, message, source}`).  Handler code treats these
values as opaque and passes them through unchanged. -/
structure Diagnostic where
  range : Range
  severity : Nat
  message : String
  source : String
deriving DecidableEq

/-- The log levels accepted by `set_log_level` (tool description in
src/tools/index.ts: emergency, alert, critical, error, warning, notice, info,
debug). -/
inductive LogLevel where
  | emergency | alert | critical | error | warning | notice | info | debug
deriving DecidableEq

def levelName : LogLevel → String
  | .emergency => "emergency"
  | .alert => "alert"
  | .critical => "critical"
  | .error => "error"
  | .warning => "warning"
  | .notice => "notice"
  | .info => "info"
  | .debug => "debug"

/-- Per-document state tracked by the client (spec §3: DocumentState with
languageId, version starting at 1, content snapshot). -/
structure DocState where
  languageId : String
  version : Nat
  content : String
deriving DecidableEq

/-- Notifications the document store transmits to the server process. -/
inductive Notification where
  | didOpen (uri languageId : String) (version : Nat) (content : String)
  | didClose (uri : String)
deriving DecidableEq

/-- Model of the LSPClient object from src/lspClient.ts (the file itself is
not among the sources; its state carries the document store and diagnostics
cache of spec §3, the construction arguments of spec §6, and arbitrary
server-determined query results as function fields). -/
structure LSPClient where
  serverPath : String
  serverArgs : List String
  documents : List (String × DocState)
  diagnostics : List (String × List Diagnostic)
  infoAt : String → Position → String
  completionsAt : String → Position → List String
  codeActionsAt : String → Range → List String

/-- Modelled from the spec: `new LSPClient(serverPath, serverArgs)` stores the
executable path and arguments and starts with no open documents and an empty
diagnostics cache (src/lspClient.ts is absent from the sources). -/
def LSPClient.new (serverPath : String) (serverArgs : List String) : LSPClient :=
  ⟨serverPath, serverArgs, [], [], fun _ _ => "", fun _ _ => [], fun _ _ => []⟩

/-- Modelled from the spec: `isOpen(uri)` is a lookup into the document store
(src/lspClient.ts is absent from the sources). -/
def LSPClient.isDocumentOpen (c : LSPClient) (uri : String) : Bool :=
  (c.documents.lookup uri).isSome

/-- Modelled from the spec: `diagnostics(uri)` is a read-only lookup into the
DiagnosticsCache (src/lspClient.ts is absent from the sources). -/
def LSPClient.getDiagnostics (c : LSPClient) (uri : String) : List Diagnostic :=
  (c.diagnostics.lookup uri).getD []

/-- Modelled from the spec: `allDiagnostics()` exposes the DiagnosticsCache
mapping (src/lspClient.ts is absent from the sources; the handler itself does
the restriction to open uris). -/
def LSPClient.getAllDiagnostics (c : LSPClient) : List (String × List Diagnostic) :=
  c.diagnostics

/-- Modelled from the spec: `open(uri, content, languageId)` is idempotent —
if the uri is already tracked it is a no-op (no notification sent, no version
bump); otherwise the document is tracked at version 1 and one didOpen
notification is transmitted (src/lspClient.ts is absent from the sources). -/
def LSPClient.openDocument (c : LSPClient) (uri content languageId : String) :
    LSPClient × List Notification :=
  if c.isDocumentOpen uri then (c, [])
  else
    ({ c with documents := (uri, ⟨languageId, 1, content⟩) :: c.documents },
     [.didOpen uri languageId 1 content])

/-- Modelled from the spec: `close(uri)` sends the didClose notification and
removes both the document entry and its diagnostics cache entry; closing a
never-opened uri is a no-op (src/lspClient.ts is absent from the sources). -/
def LSPClient.closeDocument (c : LSPClient) (uri : String) :
    LSPClient × List Notification :=
  if c.isDocumentOpen uri then
    ({ c with
        documents := c.documents.filter (fun kv => !(kv.1 == uri)),
        diagnostics := c.diagnostics.filter (fun kv => !(kv.1 == uri)) },
     [.didClose uri])
  else (c, [])

/-- Modelled from the spec: `restart(rootDir)` tears the process down,
clears the DiagnosticsCache and DocumentState entirely, respawns and
re-initializes against the given root directory (src/lspClient.ts is absent
from the sources). -/
def LSPClient.restart (c : LSPClient) (_rootDir : String) : LSPClient :=
  { c with documents := [], diagnostics := [] }

/-- The LSP-client operations a handler can invoke, recorded as a trace. -/
inductive ClientOp where
  | openDocument (uri content languageId : String)
  | getInfoOnLocation (uri : String) (pos : Position)
  | getCompletion (uri : String) (pos : Position)
  | getCodeActions (uri : String) (range : Range)
  | restart (rootDir : String)
  | clientInit (rootDir : String)
  | closeDocument (uri : String)
  | isDocumentOpen (uri : String)
  | getDiagnostics (uri : String)
  | getAllDiagnostics
deriving DecidableEq

/-- The mutable state visible to the tool handlers: the lspClient holder, the
stored root directory, and the logging level (src/tools/index.ts receives
lspClient, rootDir and their setters from the entry point). -/
structure ToolState where
  lspClient : Option LSPClient
  rootDir : String
  logLevel : LogLevel

/-- src/tools/index.ts `createFileUri`.  `path.resolve` is modelled as the
identity on the (assumed already absolute) input path; no claim depends on
relative-path resolution. -/
def createFileUri (filePath : String) : String :=
  "file://" ++ filePath

/-- The exact error message thrown by `checkLspClientInitialized`
(src/tools/index.ts lines 28-32). -/
def notStartedMsg : String :=
  "LSP server not started. Call start_lsp first with a root directory."

/-- src/tools/index.ts `checkLspClientInitialized`: throws when the client
holder is null. -/
def checkLspClientInitialized (lspClient : Option LSPClient) : Except String Unit :=
  match lspClient with
  | none => .error notStartedMsg
  | some _ => .ok ()

/-- The file system visible to `fs.readFile`, as a path-to-content mapping. -/
def readFile (fs : List (String × String)) (p : String) : Option String :=
  fs.lookup p

/-- Error message for a failed `fs.readFile` (the concrete Node text is
environment specific; claims do not depend on it). -/
def readFailMsg (p : String) : String :=
  "ENOENT: no such file or directory, open " ++ p

/-- JavaScript truthiness of an optional string: `undefined` and the empty
string are falsy. -/
def truthy : Option String → Bool
  | none => false
  | some s => !(s == "")

/-- JavaScript `o || d` on an optional string: the empty string is falsy and
falls through to the default. -/
def truthyOr (o : Option String) (d : String) : String :=
  match o with
  | some s => if s == "" then d else s
  | none => d

/-- Arguments of get_info_on_location as accessed by the handler. -/
structure GetInfoOnLocationArgs where
  file_path : String
  language_id : String
  line : Int
  column : Int

/-- Arguments of get_completions as accessed by the handler. -/
structure GetCompletionsArgs where
  file_path : String
  language_id : String
  line : Int
  column : Int

/-- Arguments of get_code_actions as accessed by the handler. -/
structure GetCodeActionsArgs where
  file_path : String
  language_id : String
  start_line : Int
  start_column : Int
  end_line : Int
  end_column : Int

/-- Arguments of open_document as accessed by the handler. -/
structure OpenDocumentArgs where
  file_path : String
  language_id : String

/-- Arguments of close_document as accessed by the handler. -/
structure CloseDocumentArgs where
  file_path : String

/-- Arguments of get_diagnostics as accessed by the handler. -/
structure GetDiagnosticsArgs where
  file_path : Option String

/-- Arguments of restart_lsp_server as accessed by the handler. -/
structure RestartLSPServerArgs where
  root_dir : Option String

/-- Arguments of start_lsp as accessed by the handler. -/
structure StartLSPArgs where
  root_dir : Option String

/-- Arguments of set_log_level as accessed by the handler. -/
structure SetLogLevelArgs where
  level : LogLevel

/-- The get_info_on_location handler (src/tools/index.ts lines 37-65):
check the client, read the file, open the document, then query hover at the
caller position translated to 0-based. -/
def handle_get_info_on_location (a : GetInfoOnLocationArgs)
    (fs : List (String × String)) (st : ToolState) :
    Except String String × ToolState × List ClientOp :=
  match st.lspClient with
  | none => (.error notStartedMsg, st, [])
  | some c =>
    match readFile fs a.file_path with
    | none => (.error (readFailMsg a.file_path), st, [])
    | some content =>
      let fileUri := createFileUri a.file_path
      let r := c.openDocument fileUri content a.language_id
      let pos : Position := ⟨a.line - 1, a.column - 1⟩
      (.ok (r.1.infoAt fileUri pos), { st with lspClient := some r.1 },
       [.openDocument fileUri content a.language_id, .getInfoOnLocation fileUri pos])

/-- The get_completions handler (src/tools/index.ts lines 67-95). -/
def handle_get_completions (a : GetCompletionsArgs)
    (fs : List (String × String)) (st : ToolState) :
    Except String (List String) × ToolState × List ClientOp :=
  match st.lspClient with
  | none => (.error notStartedMsg, st, [])
  | some c =>
    match readFile fs a.file_path with
    | none => (.error (readFailMsg a.file_path), st, [])
    | some content =>
      let fileUri := createFileUri a.file_path
      let r := c.openDocument fileUri content a.language_id
      let pos : Position := ⟨a.line - 1, a.column - 1⟩
      (.ok (r.1.completionsAt fileUri pos), { st with lspClient := some r.1 },
       [.openDocument fileUri content a.language_id, .getCompletion fileUri pos])

/-- The get_code_actions handler (src/tools/index.ts lines 97-131). -/
def handle_get_code_actions (a : GetCodeActionsArgs)
    (fs : List (String × String)) (st : ToolState) :
    Except String (List String) × ToolState × List ClientOp :=
  match st.lspClient with
  | none => (.error notStartedMsg, st, [])
  | some c =>
    match readFile fs a.file_path with
    | none => (.error (readFailMsg a.file_path), st, [])
    | some content =>
      let fileUri := createFileUri a.file_path
      let r := c.openDocument fileUri content a.language_id
      let range : Range :=
        ⟨⟨a.start_line - 1, a.start_column - 1⟩, ⟨a.end_line - 1, a.end_column - 1⟩⟩
      (.ok (r.1.codeActionsAt fileUri range), { st with lspClient := some r.1 },
       [.openDocument fileUri content a.language_id, .getCodeActions fileUri range])

/-- The restart_lsp_server handler (src/tools/index.ts lines 133-166):
`restartRootDir = args.root_dir || rootDir`; the stored root directory is
updated only when `args.root_dir` is truthy (so not for the empty string),
then the client restart runs with `restartRootDir`. -/
def handle_restart_lsp_server (a : RestartLSPServerArgs) (st : ToolState) :
    Except String String × ToolState × List ClientOp :=
  match st.lspClient with
  | none => (.error notStartedMsg, st, [])
  | some c =>
    let restartRootDir := truthyOr a.root_dir st.rootDir
    let st1 := if truthy a.root_dir then { st with rootDir := restartRootDir } else st
    let c1 := c.restart restartRootDir
    let msg := if truthy a.root_dir then
        "LSP server successfully restarted and initialized with root directory: " ++
          restartRootDir
      else "LSP server successfully restarted"
    (.ok msg, { st1 with lspClient := some c1 }, [.restart restartRootDir])

/-- The start_lsp handler (src/tools/index.ts lines 168-195).  The handler
closes over the `lspClient` PARAMETER of `getToolHandlers`; `setLspClient`
mutates the external holder, not that local binding, so after creating and
registering a new client the subsequent `lspClient!.initialize(...)` still
dereferences the captured value.  When that captured value is null this throws
a TypeError (modelled by a fixed message; the concrete Node text is runtime
specific), which the catch block wraps in "Failed to start LSP server: ".
The success message interpolates the captured `rootDir` parameter, which is
likewise the pre-call stored value. -/
def handle_start_lsp (serverPath : String) (serverArgs : List String)
    (a : StartLSPArgs) (st : ToolState) :
    Except String String × ToolState × List ClientOp :=
  let startRootDir := truthyOr a.root_dir st.rootDir
  let st1 := { st with rootDir := startRootDir }
  let st2 := if st.lspClient.isNone then
      { st1 with lspClient := some (LSPClient.new serverPath serverArgs) }
    else st1
  match st.lspClient with
  | none =>
    (.error "Failed to start LSP server: Cannot read properties of null (reading initialize)",
     st2, [])
  | some _ =>
    (.ok ("LSP server successfully started with root directory: " ++ st.rootDir),
     st2, [.clientInit startRootDir])

/-- The open_document handler (src/tools/index.ts lines 197-223); read
failures inside the try block are wrapped in "Failed to open document: ". -/
def handle_open_document (a : OpenDocumentArgs)
    (fs : List (String × String)) (st : ToolState) :
    Except String String × ToolState × List ClientOp :=
  match st.lspClient with
  | none => (.error notStartedMsg, st, [])
  | some c =>
    match readFile fs a.file_path with
    | none => (.error ("Failed to open document: " ++ readFailMsg a.file_path), st, [])
    | some content =>
      let fileUri := createFileUri a.file_path
      let r := c.openDocument fileUri content a.language_id
      (.ok ("File successfully opened: " ++ a.file_path),
       { st with lspClient := some r.1 },
       [.openDocument fileUri content a.language_id])

/-- The close_document handler (src/tools/index.ts lines 225-248). -/
def handle_close_document (a : CloseDocumentArgs) (st : ToolState) :
    Except String String × ToolState × List ClientOp :=
  match st.lspClient with
  | none => (.error notStartedMsg, st, [])
  | some c =>
    let fileUri := createFileUri a.file_path
    let r := c.closeDocument fileUri
    (.ok ("File successfully closed: " ++ a.file_path),
     { st with lspClient := some r.1 },
     [.closeDocument fileUri])

/-- Result payload of get_diagnostics, before JSON serialization (formatting
is out of scope per spec §6). -/
inductive GetDiagnosticsResult where
  | single (uri : String) (diags : List Diagnostic)
  | all (m : List (String × List Diagnostic))
deriving DecidableEq

/-- The get_diagnostics handler (src/tools/index.ts lines 250-302).  The
branch condition is JavaScript `if (args.file_path)`, so a supplied empty
string is falsy and takes the all-files branch exactly like an omitted
file_path.  With a truthy (non-empty) file_path: the uri must be open,
otherwise the not-open error is thrown inside the try block and re-wrapped in
"Failed to get diagnostics: ".  Otherwise: the all-diagnostics mapping is
filtered to currently open uris. -/
def handle_get_diagnostics (a : GetDiagnosticsArgs) (st : ToolState) :
    Except String GetDiagnosticsResult × ToolState × List ClientOp :=
  match st.lspClient with
  | none => (.error notStartedMsg, st, [])
  | some c =>
    match a.file_path with
    | some p =>
      if p == "" then
        (.ok (.all (c.getAllDiagnostics.filter (fun kv => c.isDocumentOpen kv.1))), st,
         .getAllDiagnostics :: c.getAllDiagnostics.map (fun kv => .isDocumentOpen kv.1))
      else
        let fileUri := createFileUri p
        if c.isDocumentOpen fileUri then
          (.ok (.single fileUri (c.getDiagnostics fileUri)), st,
           [.isDocumentOpen fileUri, .getDiagnostics fileUri])
        else
          (.error ("Failed to get diagnostics: File " ++ p ++
             " is not open. Please open the file with open_document before requesting diagnostics."),
           st, [.isDocumentOpen fileUri])
    | none =>
      (.ok (.all (c.getAllDiagnostics.filter (fun kv => c.isDocumentOpen kv.1))), st,
       .getAllDiagnostics :: c.getAllDiagnostics.map (fun kv => .isDocumentOpen kv.1))

/-- The set_log_level handler (src/tools/index.ts lines 304-315): no client
check, no client operation; it only sets the level. -/
def handle_set_log_level (a : SetLogLevelArgs) (st : ToolState) :
    Except String String × ToolState × List ClientOp :=
  (.ok ("Log level set to: " ++ levelName a.level),
   { st with logLevel := a.level }, [])

/-- A concrete client with no open documents and no cached diagnostics, used
as a sample input. -/
def emptyClient : LSPClient :=
  ⟨"/usr/bin/hls", ["lsp"], [], [], fun _ _ => "", fun _ _ => [], fun _ _ => []⟩

/-! ### Hover result normalization

Modelled from the spec (src/lspClient.ts is absent from the sources):
`hover(uri, position)` normalizes a result that may be absent (null) or may
carry content as MarkupContent, a MarkedString, or a sequence of MarkedString
(spec §9); the normalized output is always a single flattened text string,
empty when the result is null, and the scenario in spec §8 fixes
`{"contents": null}` to normalize to the empty string as well. -/

/-- A MarkedString: either a bare string or `{language, value}`. -/
inductive MarkedString where
  | plain (s : String)
  | withLang (language value : String)
deriving DecidableEq

/-- The textual content of one MarkedString. -/
def MarkedString.text : MarkedString → String
  | .plain s => s
  | .withLang _ v => v

/-- The shapes a non-null hover result's `contents` field can take. -/
inductive HoverContents where
  | markup (kind value : String)
  | single (m : MarkedString)
  | many (ms : List MarkedString)
  | nullContents
deriving DecidableEq

/-- A hover response result: absent (null) or an object carrying contents. -/
inductive HoverResult where
  | nullResult
  | hover (contents : HoverContents)
deriving DecidableEq

/-- Modelled from the spec: flatten a hover result to a single text string
(empty for a null result and for null contents, per the spec scenarios). -/
def normalizeHover : HoverResult → String
  | .nullResult => ""
  | .hover .nullContents => ""
  | .hover (.markup _ v) => v
  | .hover (.single m) => m.text
  | .hover (.many ms) => String.intercalate "\n" (ms.map MarkedString.text)

/-! ### Message Framer

Modelled from the spec (src/lspClient.ts is absent from the sources):
frames are `Content-Length: <N>\r\n\r\n<N-byte body>` (spec §6); decoding
keeps an accumulating buffer across chunk boundaries and greedily extracts
every complete frame from the front (spec §4.1).  Bytes are `Nat`. -/

namespace Framer

/-- The frame separator bytes, CR LF CR LF. -/
def sepBytes : List Nat := [13, 10, 13, 10]

/-- ASCII bytes of the header field name "Content-Length: " (16 bytes). -/
def headerBytes : List Nat :=
  [67, 111, 110, 116, 101, 110, 116, 45, 76, 101, 110, 103, 116, 104, 58, 32]

/-- Split the buffer at the first CR LF CR LF: returns the bytes before it
and the bytes after it, or none when no separator is present yet. -/
def findSep : List Nat → Option (List Nat × List Nat)
  | [] => none
  | x :: xs =>
    if (x :: xs).take 4 = sepBytes then some ([], (x :: xs).drop 4)
    else
      match findSep xs with
      | some (h, r) => some (x :: h, r)
      | none => none

def isDigitByte (b : Nat) : Bool := 48 ≤ b && b ≤ 57

/-- Parse a nonempty run of ASCII decimal digits. -/
def parseDecimal (bs : List Nat) : Option Nat :=
  if !bs.isEmpty && bs.all isDigitByte then
    some (bs.foldl (fun acc b => acc * 10 + (b - 48)) 0)
  else none

/-- Parse a header: the "Content-Length: " field name followed by the decimal
byte count of the body. -/
def parseHeader (h : List Nat) : Option Nat :=
  if h.take 16 = headerBytes then parseDecimal (h.drop 16) else none

/-- Extract one complete frame from the front of the buffer: header up to the
separator, then a body of the declared length.  Returns the body and the
remaining bytes, or none when no complete well-formed frame is available. -/
def extract (b : List Nat) : Option (List Nat × List Nat) :=
  (findSep b).bind fun p =>
    (parseHeader p.1).bind fun n =>
      if n ≤ p.2.length then some (p.2.take n, p.2.drop n) else none

/-- ASCII decimal digits of a natural number. -/
def toDecimal (n : Nat) : List Nat :=
  (Nat.toDigits 10 n).map Char.toNat

/-- Encode one message body as a frame: header line, blank line, body. -/
def encode (body : List Nat) : List Nat :=
  headerBytes ++ toDecimal body.length ++ sepBytes ++ body

/-- A valid framed byte sequence: the concatenation of the frames of a
message list. -/
def encodeAll (msgs : List (List Nat)) : List Nat :=
  (msgs.map encode).flatten

theorem findSep_eq_append {b h r : List Nat} (hf : findSep b = some (h, r)) :
    b = h ++ sepBytes ++ r := by
  induction b generalizing h r with
  | nil => simp [findSep] at hf
  | cons x xs ih =>
    rw [findSep] at hf
    by_cases hc : (x :: xs).take 4 = sepBytes
    · rw [if_pos hc] at hf
      obtain ⟨rfl, rfl⟩ := by simpa using hf
      conv_lhs => rw [← List.take_append_drop 4 (x :: xs)]
      rw [hc]
      simp
    · rw [if_neg hc] at hf
      cases hx : findSep xs with
      | none => rw [hx] at hf; simp at hf
      | some p =>
        obtain ⟨h', r'⟩ := p
        rw [hx] at hf
        obtain ⟨rfl, rfl⟩ := by simpa using hf
        have := ih hx
        simp [this]

theorem findSep_length {b h r : List Nat} (hf : findSep b = some (h, r)) :
    4 ≤ b.length := by
  have := findSep_eq_append hf
  subst this
  simp [sepBytes]
  omega

theorem findSep_append {b h r : List Nat} (c : List Nat)
    (hf : findSep b = some (h, r)) :
    findSep (b ++ c) = some (h, r ++ c) := by
  induction b generalizing h r with
  | nil => simp [findSep] at hf
  | cons x xs ih =>
    rw [findSep] at hf
    by_cases hc : (x :: xs).take 4 = sepBytes
    · rw [if_pos hc] at hf
      obtain ⟨rfl, rfl⟩ := by simpa using hf
      have hlen : 4 ≤ (x :: xs).length := by
        have : ((x :: xs).take 4).length = 4 := by rw [hc]; rfl
        simpa using this
      have htake : ((x :: xs) ++ c).take 4 = sepBytes := by
        rw [List.take_append_eq_append_take]
        have h4 : 4 - (x :: xs).length = 0 := by omega
        rw [h4, hc]
        simp
      have hdrop : ((x :: xs) ++ c).drop 4 = (x :: xs).drop 4 ++ c := by
        rw [List.drop_append_eq_append_drop]
        have h4 : 4 - (x :: xs).length = 0 := by omega
        rw [h4]
        simp
      rw [List.cons_append, findSep, ← List.cons_append, if_pos htake, hdrop]
      simp
    · rw [if_neg hc] at hf
      cases hx : findSep xs with
      | none => rw [hx] at hf; simp at hf
      | some p =>
        obtain ⟨h', r'⟩ := p
        rw [hx] at hf
        obtain ⟨rfl, rfl⟩ := by simpa using hf
        have hlen : 4 ≤ xs.length := findSep_length hx
        have hctake : ((x :: xs) ++ c).take 4 = (x :: xs).take 4 := by
          rw [List.take_append_eq_append_take]
          have h4 : 4 - (x :: xs).length = 0 := by simp; omega
          rw [h4]
          simp
        rw [List.cons_append, findSep, ← List.cons_append]
        rw [if_neg (by rw [hctake]; exact hc)]
        rw [ih hx]

theorem extract_append {b m rest : List Nat} (c : List Nat)
    (he : extract b = some (m, rest)) :
    extract (b ++ c) = some (m, rest ++ c) := by
  rw [extract] at he
  cases hf : findSep b with
  | none => rw [hf] at he; simp at he
  | some p =>
    obtain ⟨h, r⟩ := p
    rw [hf, Option.some_bind] at he
    cases hp : parseHeader h with
    | none => rw [hp] at he; simp at he
    | some n =>
      rw [hp, Option.some_bind] at he
      by_cases hn : n ≤ r.length
      · rw [if_pos hn] at he
        obtain ⟨rfl, rfl⟩ := by simpa using he
        rw [extract, findSep_append c hf, Option.some_bind, hp, Option.some_bind]
        have hn' : n ≤ (r ++ c).length := by simp; omega
        rw [if_pos hn']
        have htake : (r ++ c).take n = r.take n := by
          rw [List.take_append_eq_append_take]
          have h0 : n - r.length = 0 := by omega
          rw [h0]
          simp
        have hdrop : (r ++ c).drop n = r.drop n ++ c := by
          rw [List.drop_append_eq_append_drop]
          have h0 : n - r.length = 0 := by omega
          rw [h0]
          simp
        rw [htake, hdrop]
      · rw [if_neg hn] at he; simp at he

theorem extract_length {b m rest : List Nat}
    (he : extract b = some (m, rest)) :
    rest.length < b.length := by
  rw [extract] at he
  cases hf : findSep b with
  | none => rw [hf] at he; simp at he
  | some p =>
    obtain ⟨h, r⟩ := p
    rw [hf, Option.some_bind] at he
    cases hp : parseHeader h with
    | none => rw [hp] at he; simp at he
    | some n =>
      rw [hp, Option.some_bind] at he
      by_cases hn : n ≤ r.length
      · rw [if_pos hn] at he
        obtain ⟨rfl, rfl⟩ := by simpa using he
        have hb := findSep_eq_append hf
        subst hb
        simp [sepBytes]
        omega
      · rw [if_neg hn] at he; simp at he

/-- Fuel-bounded greedy extraction of complete frames from the front of the
buffer.  Each extraction strictly shortens the buffer, so fuel equal to the
buffer length is always sufficient. -/
def drainGo : Nat → List Nat → List (List Nat) × List Nat
  | 0, b => ([], b)
  | fuel + 1, b =>
    match extract b with
    | none => ([], b)
    | some (m, rest) =>
      let p := drainGo fuel rest
      (m :: p.1, p.2)

/-- Greedily extract every complete frame from the front of the buffer,
returning the decoded bodies in order and the undecoded remainder. -/
def drain (b : List Nat) : List (List Nat) × List Nat :=
  drainGo b.length b

theorem drainGo_congr :
    ∀ (fuel fuel' : Nat) (b : List Nat), b.length ≤ fuel → b.length ≤ fuel' →
      drainGo fuel b = drainGo fuel' b := by
  intro fuel
  induction fuel with
  | zero =>
    intro fuel' b hb _
    have : b = [] := List.length_eq_zero.mp (Nat.le_zero.mp hb)
    subst this
    cases fuel' with
    | zero => rfl
    | succ f' => rfl
  | succ f ih =>
    intro fuel' b hb hb'
    cases fuel' with
    | zero =>
      have : b = [] := List.length_eq_zero.mp (Nat.le_zero.mp hb')
      subst this
      rfl
    | succ f' =>
      show (match extract b with
        | none => ([], b)
        | some (m, rest) => let p := drainGo f rest; (m :: p.1, p.2)) =
        (match extract b with
        | none => ([], b)
        | some (m, rest) => let p := drainGo f' rest; (m :: p.1, p.2))
      cases hx : extract b with
      | none => rfl
      | some q =>
        obtain ⟨m, rest⟩ := q
        have hlt := extract_length hx
        have h1 : rest.length ≤ f := by omega
        have h2 : rest.length ≤ f' := by omega
        simp [ih f' rest h1 h2]

theorem drain_none {b : List Nat} (h : extract b = none) :
    drain b = ([], b) := by
  rw [drain]
  cases hl : b.length with
  | zero => rfl
  | succ k =>
    show (match extract b with
      | none => ([], b)
      | some (m, rest) => let p := drainGo k rest; (m :: p.1, p.2)) = ([], b)
    rw [h]

theorem drain_some {b m rest : List Nat} (h : extract b = some (m, rest)) :
    drain b = (m :: (drain rest).1, (drain rest).2) := by
  have hlt := extract_length h
  rw [drain]
  cases hl : b.length with
  | zero => omega
  | succ k =>
    show (match extract b with
      | none => ([], b)
      | some (m, rest) => let p := drainGo k rest; (m :: p.1, p.2)) =
      (m :: (drain rest).1, (drain rest).2)
    rw [h]
    have : drainGo k rest = drain rest := by
      apply drainGo_congr
      · omega
      · exact Nat.le_refl _
    simp [this]

theorem drain_extract_none (b : List Nat) : extract (drain b).2 = none := by
  cases hx : extract b with
  | none => rw [drain_none hx]; exact hx
  | some p =>
    obtain ⟨m, rest⟩ := p
    rw [drain_some hx]
    exact drain_extract_none rest
termination_by b.length
decreasing_by exact extract_length hx

theorem drain_append (b c : List Nat) :
    drain (b ++ c) =
      ((drain b).1 ++ (drain ((drain b).2 ++ c)).1, (drain ((drain b).2 ++ c)).2) := by
  cases hx : extract b with
  | none =>
    rw [drain_none hx]
    simp
  | some p =>
    obtain ⟨m, rest⟩ := p
    rw [drain_some hx, drain_some (extract_append c hx), drain_append rest c]
    simp
termination_by b.length
decreasing_by exact extract_length hx

/-- The incremental decoder state: the accumulating buffer and the messages
decoded so far, in order. -/
structure FramerState where
  buffer : List Nat
  messages : List (List Nat)
deriving DecidableEq

/-- Feed one chunk: append it to the buffer, then extract every complete
frame. -/
def feed (st : FramerState) (chunk : List Nat) : FramerState :=
  ⟨(drain (st.buffer ++ chunk)).2, st.messages ++ (drain (st.buffer ++ chunk)).1⟩

/-- Feed a sequence of chunks one at a time, starting from the empty state. -/
def feedAll (chunks : List (List Nat)) : FramerState :=
  chunks.foldl feed ⟨[], []⟩

theorem foldl_feed (chunks : List (List Nat)) (st : FramerState)
    (h : extract st.buffer = none) :
    chunks.foldl feed st = feed st chunks.flatten := by
  induction chunks generalizing st with
  | nil =>
    simp [feed, drain_none h]
  | cons c cs ih =>
    rw [List.foldl_cons, ih (feed st c) (drain_extract_none _), List.flatten_cons]
    show feed (feed st c) cs.flatten = feed st (c ++ cs.flatten)
    simp only [feed, ← List.append_assoc]
    rw [drain_append (st.buffer ++ c) cs.flatten]
    simp

end Framer

/-! ## Claim theorems -/

/-- C1: For every tool operation other than start_lsp and set_log_level
(get_info_on_location, get_completions, get_code_actions, restart_lsp_server,
open_document, close_document, get_diagnostics), invoking the handler before a
successful initialize handshake has produced an LSP client fails locally with
the "not started" error, and no LSP client operation is performed (the tool
state is returned unchanged and the operation trace is empty). -/
theorem handlers_reject_before_start (fs : List (String × String)) (st : ToolState)
    (h : st.lspClient = none) :
    (∀ a : GetInfoOnLocationArgs,
      handle_get_info_on_location a fs st = (.error notStartedMsg, st, [])) ∧
    (∀ a : GetCompletionsArgs,
      handle_get_completions a fs st = (.error notStartedMsg, st, [])) ∧
    (∀ a : GetCodeActionsArgs,
      handle_get_code_actions a fs st = (.error notStartedMsg, st, [])) ∧
    (∀ a : RestartLSPServerArgs,
      handle_restart_lsp_server a st = (.error notStartedMsg, st, [])) ∧
    (∀ a : OpenDocumentArgs,
      handle_open_document a fs st = (.error notStartedMsg, st, [])) ∧
    (∀ a : CloseDocumentArgs,
      handle_close_document a st = (.error notStartedMsg, st, [])) ∧
    (∀ a : GetDiagnosticsArgs,
      handle_get_diagnostics a st = (.error notStartedMsg, st, [])) := by
  refine ⟨?_, ?_, ?_, ?_, ?_, ?_, ?_⟩ <;> intro a <;>
    simp only [handle_get_info_on_location, handle_get_completions,
      handle_get_code_actions, handle_restart_lsp_server, handle_open_document,
      handle_close_document, handle_get_diagnostics, h]

theorem handlers_reject_before_start_witness :
    handle_get_info_on_location ⟨"/a.hs", "haskell", 1, 1⟩ []
        ⟨none, "/proj", LogLevel.info⟩ =
      (.error notStartedMsg, ⟨none, "/proj", LogLevel.info⟩, []) :=
  (handlers_reject_before_start [] ⟨none, "/proj", LogLevel.info⟩ rfl).1
    ⟨"/a.hs", "haskell", 1, 1⟩

/-- C2: For every get_info_on_location, get_completions, and get_code_actions
call that reaches the LSP client, the line and column passed to the client
equal the caller-supplied 1-based values minus exactly 1 (all four range
coordinates for code actions), with no other transformation: the full trace
is one openDocument followed by one positional query at exactly those
coordinates. -/
theorem position_translation_minus_one (fs : List (String × String))
    (st : ToolState) (c : LSPClient) (hc : st.lspClient = some c) :
    (∀ (a : GetInfoOnLocationArgs) (content : String),
      readFile fs a.file_path = some content →
      (handle_get_info_on_location a fs st).2.2 =
        [ClientOp.openDocument (createFileUri a.file_path) content a.language_id,
         ClientOp.getInfoOnLocation (createFileUri a.file_path)
           ⟨a.line - 1, a.column - 1⟩]) ∧
    (∀ (a : GetCompletionsArgs) (content : String),
      readFile fs a.file_path = some content →
      (handle_get_completions a fs st).2.2 =
        [ClientOp.openDocument (createFileUri a.file_path) content a.language_id,
         ClientOp.getCompletion (createFileUri a.file_path)
           ⟨a.line - 1, a.column - 1⟩]) ∧
    (∀ (a : GetCodeActionsArgs) (content : String),
      readFile fs a.file_path = some content →
      (handle_get_code_actions a fs st).2.2 =
        [ClientOp.openDocument (createFileUri a.file_path) content a.language_id,
         ClientOp.getCodeActions (createFileUri a.file_path)
           ⟨⟨a.start_line - 1, a.start_column - 1⟩,
            ⟨a.end_line - 1, a.end_column - 1⟩⟩]) := by
  refine ⟨?_, ?_, ?_⟩ <;> intro a content hread <;>
    simp only [handle_get_info_on_location, handle_get_completions,
      handle_get_code_actions, hc, hread]

theorem position_translation_minus_one_witness :
    (handle_get_info_on_location ⟨"/a.hs", "haskell", 5, 3⟩ [("/a.hs", "main")]
        ⟨some emptyClient, "/proj", LogLevel.info⟩).2.2 =
      [ClientOp.openDocument (createFileUri "/a.hs") "main" "haskell",
       ClientOp.getInfoOnLocation (createFileUri "/a.hs") ⟨5 - 1, 3 - 1⟩] :=
  (position_translation_minus_one [("/a.hs", "main")]
      ⟨some emptyClient, "/proj", LogLevel.info⟩ emptyClient rfl).1
    ⟨"/a.hs", "haskell", 5, 3⟩ "main" rfl

/-- C9: the intended behavior of the start_lsp handler — construct a client
when none exists, register it, and initialize it — is NOT what the code does:
`setLspClient` updates the external holder, but `lspClient!.initialize` reads
the stale closure-captured parameter, which is still null, so the first call
throws and performs no initialize even though a client was registered and the
root directory was stored. -/
theorem start_lsp_first_call_null_deref :
    (handle_start_lsp "/usr/bin/hls" ["lsp"] ⟨some "/proj"⟩
        ⟨none, "/old", LogLevel.info⟩).1 =
      .error "Failed to start LSP server: Cannot read properties of null (reading initialize)" ∧
    (handle_start_lsp "/usr/bin/hls" ["lsp"] ⟨some "/proj"⟩
        ⟨none, "/old", LogLevel.info⟩).2.2 = [] ∧
    ((handle_start_lsp "/usr/bin/hls" ["lsp"] ⟨some "/proj"⟩
        ⟨none, "/old", LogLevel.info⟩).2.1.lspClient).isSome = true ∧
    (handle_start_lsp "/usr/bin/hls" ["lsp"] ⟨some "/proj"⟩
        ⟨none, "/old", LogLevel.info⟩).2.1.rootDir = "/proj" :=
  ⟨rfl, rfl, rfl, rfl⟩

/-- C10: the set_log_level handler succeeds for every level argument and every
tool state (in particular when no LSP client exists): it never raises the
"not started" error, performs no LSP client operation, and its only effect on
the state is setting the log level. -/
theorem set_log_level_no_client_needed (a : SetLogLevelArgs) (st : ToolState) :
    handle_set_log_level a st =
      (.ok ("Log level set to: " ++ levelName a.level),
       { st with logLevel := a.level }, []) ∧
    ({ st with logLevel := a.level } : ToolState).lspClient = st.lspClient ∧
    ({ st with logLevel := a.level } : ToolState).rootDir = st.rootDir :=
  ⟨rfl, rfl, rfl⟩

/-- C3: get_diagnostics called without a file_path returns exactly those
entries of the client's all-diagnostics mapping whose uri is currently open,
each with its cached diagnostic sequence unchanged; entries for non-open uris
never appear, and the tool state is unchanged. -/
theorem get_diagnostics_all_open_filter (st : ToolState) (c : LSPClient)
    (hc : st.lspClient = some c) :
    (handle_get_diagnostics ⟨none⟩ st).1 =
      .ok (.all (c.getAllDiagnostics.filter (fun kv => c.isDocumentOpen kv.1))) ∧
    (handle_get_diagnostics ⟨none⟩ st).2.1 = st ∧
    (∀ (u : String) (ds : List Diagnostic),
      (u, ds) ∈ c.getAllDiagnostics.filter (fun kv => c.isDocumentOpen kv.1) ↔
        ((u, ds) ∈ c.getAllDiagnostics ∧ c.isDocumentOpen u = true)) := by
  refine ⟨?_, ?_, ?_⟩
  · simp only [handle_get_diagnostics, hc]
  · simp only [handle_get_diagnostics, hc]
  · intro u ds
    simp [List.mem_filter]

theorem get_diagnostics_all_open_filter_witness :
    (handle_get_diagnostics ⟨none⟩ ⟨some emptyClient, "/proj", LogLevel.info⟩).1 =
      .ok (.all (emptyClient.getAllDiagnostics.filter
        (fun kv => emptyClient.isDocumentOpen kv.1))) :=
  (get_diagnostics_all_open_filter ⟨some emptyClient, "/proj", LogLevel.info⟩
    emptyClient rfl).1

/-- C4 counterexample: get_diagnostics called with the empty string as
file_path — a uri that is not open — does not fail with a not-open error:
JavaScript `if (args.file_path)` treats the empty string as falsy, so the
call takes the all-files branch and succeeds. -/
theorem get_diagnostics_empty_path_no_error :
    emptyClient.isDocumentOpen (createFileUri "") = false ∧
    (handle_get_diagnostics ⟨some ""⟩
        ⟨some emptyClient, "/proj", LogLevel.info⟩).1 = .ok (.all []) :=
  ⟨rfl, rfl⟩

/-- C4 amended: get_diagnostics with a non-empty file_path whose uri is not
open fails with an error stating the file is not open and leaves the tool
state (hence the diagnostics cache and document store) unchanged; when the
uri is open it returns the cached diagnostics for that uri, again leaving the
state unchanged; an empty-string file_path is treated by JavaScript
truthiness like an omitted one and returns the all-open-files mapping. -/
theorem get_diagnostics_file_open_check (st : ToolState) (c : LSPClient)
    (p : String) (hc : st.lspClient = some c) :
    (p ≠ "" → c.isDocumentOpen (createFileUri p) = false →
      handle_get_diagnostics ⟨some p⟩ st =
        (.error ("Failed to get diagnostics: File " ++ p ++
           " is not open. Please open the file with open_document before requesting diagnostics."),
         st, [ClientOp.isDocumentOpen (createFileUri p)])) ∧
    (p ≠ "" → c.isDocumentOpen (createFileUri p) = true →
      handle_get_diagnostics ⟨some p⟩ st =
        (.ok (.single (createFileUri p) (c.getDiagnostics (createFileUri p))),
         st, [ClientOp.isDocumentOpen (createFileUri p),
              ClientOp.getDiagnostics (createFileUri p)])) ∧
    (handle_get_diagnostics ⟨some ""⟩ st =
      (.ok (.all (c.getAllDiagnostics.filter (fun kv => c.isDocumentOpen kv.1))), st,
       .getAllDiagnostics :: c.getAllDiagnostics.map (fun kv => .isDocumentOpen kv.1))) := by
  refine ⟨?_, ?_, ?_⟩
  · intro hp hopen
    have hbeq : (p == "") = false := by simpa using hp
    simp only [handle_get_diagnostics, hc, hbeq, hopen]
    simp
  · intro hp hopen
    have hbeq : (p == "") = false := by simpa using hp
    simp only [handle_get_diagnostics, hc, hbeq, hopen]
    simp
  · simp only [handle_get_diagnostics, hc]
    simp

theorem get_diagnostics_file_open_check_witness :
    ("/a.hs" : String) ≠ "" ∧
    emptyClient.isDocumentOpen (createFileUri "/a.hs") = false ∧
    handle_get_diagnostics ⟨some "/a.hs"⟩ ⟨some emptyClient, "/proj", LogLevel.info⟩ =
      (.error ("Failed to get diagnostics: File " ++ "/a.hs" ++
         " is not open. Please open the file with open_document before requesting diagnostics."),
       ⟨some emptyClient, "/proj", LogLevel.info⟩,
       [ClientOp.isDocumentOpen (createFileUri "/a.hs")]) :=
  ⟨by decide, rfl, (get_diagnostics_file_open_check
    ⟨some emptyClient, "/proj", LogLevel.info⟩ emptyClient "/a.hs" rfl).1
      (by decide) rfl⟩

/-- C5 counterexample: an empty-string root_dir is supplied, yet the stored
root directory is not updated to it — JavaScript `args.root_dir || rootDir`
and `if (args.root_dir)` treat the empty string as falsy, so the restart uses
the previously stored root directory instead. -/
theorem restart_empty_root_dir_not_stored :
    (handle_restart_lsp_server ⟨some ""⟩
        ⟨some emptyClient, "/old", LogLevel.info⟩).2.1.rootDir = "/old" ∧
    (handle_restart_lsp_server ⟨some ""⟩
        ⟨some emptyClient, "/old", LogLevel.info⟩).2.2 = [ClientOp.restart "/old"] ∧
    ("/old" : String) ≠ "" := by
  refine ⟨rfl, rfl, ?_⟩
  decide

/-- C5 amended: restart_lsp_server called without a root_dir argument, or with
the empty string as root_dir (which JavaScript truthiness treats like an
omitted argument), invokes the client's restart with the previously stored
root directory and leaves it unchanged; when a non-empty root_dir is supplied,
the stored root directory is updated to that value and the restart is invoked
with it. -/
theorem restart_root_dir_semantics (st : ToolState) (c : LSPClient)
    (hc : st.lspClient = some c) :
    (∀ a : RestartLSPServerArgs, (a.root_dir = none ∨ a.root_dir = some "") →
      (handle_restart_lsp_server a st).2.1.rootDir = st.rootDir ∧
      (handle_restart_lsp_server a st).2.2 = [ClientOp.restart st.rootDir]) ∧
    (∀ s : String, s ≠ "" →
      (handle_restart_lsp_server ⟨some s⟩ st).2.1.rootDir = s ∧
      (handle_restart_lsp_server ⟨some s⟩ st).2.2 = [ClientOp.restart s]) := by
  constructor
  · rintro ⟨rd⟩ (h | h) <;> simp only at h <;> subst h <;>
      simp [handle_restart_lsp_server, hc, truthy, truthyOr]
  · intro s hs
    have hbeq : (s == "") = false := by
      simpa using hs
    simp [handle_restart_lsp_server, hc, truthy, truthyOr, hbeq]

theorem restart_root_dir_semantics_witness :
    (handle_restart_lsp_server ⟨some "/new"⟩
        ⟨some emptyClient, "/old", LogLevel.info⟩).2.1.rootDir = "/new" ∧
    (handle_restart_lsp_server ⟨some "/new"⟩
        ⟨some emptyClient, "/old", LogLevel.info⟩).2.2 = [ClientOp.restart "/new"] :=
  (restart_root_dir_semantics ⟨some emptyClient, "/old", LogLevel.info⟩
      emptyClient rfl).2 "/new" (by decide)

/-- The number of didOpen notifications in a transmission trace. -/
def countDidOpen (l : List Notification) : Nat :=
  (l.filter fun n => match n with | .didOpen _ _ _ _ => true | _ => false).length

/-- C6: openDocument is idempotent — the second of two consecutive opens of
the same uri with no intervening close is a no-op (no notification, no state
change, hence no version bump), and starting from a state where the uri is
not yet open the two calls transmit exactly one didOpen notification. -/
theorem openDocument_idempotent (c : LSPClient) (uri content languageId : String) :
    ((c.openDocument uri content languageId).1.openDocument uri content languageId).1 =
      (c.openDocument uri content languageId).1 ∧
    ((c.openDocument uri content languageId).1.openDocument uri content languageId).2 =
      [] ∧
    (c.isDocumentOpen uri = false →
      countDidOpen ((c.openDocument uri content languageId).2 ++
        ((c.openDocument uri content languageId).1.openDocument uri content languageId).2) = 1) := by
  by_cases h : c.isDocumentOpen uri
  · refine ⟨?_, ?_, ?_⟩ <;>
      simp [LSPClient.openDocument, h]
  · have hopen : (({ c with
        documents := (uri, ⟨languageId, 1, content⟩) :: c.documents } :
          LSPClient).isDocumentOpen uri) = true := by
      simp [LSPClient.isDocumentOpen, List.lookup]
    refine ⟨?_, ?_, ?_⟩ <;>
      simp [LSPClient.openDocument, h, hopen, countDidOpen]

theorem openDocument_idempotent_witness :
    emptyClient.isDocumentOpen "file:///a.hs" = false ∧
    countDidOpen ((emptyClient.openDocument "file:///a.hs" "main" "haskell").2 ++
      ((emptyClient.openDocument "file:///a.hs" "main" "haskell").1.openDocument
        "file:///a.hs" "main" "haskell").2) = 1 :=
  ⟨rfl, (openDocument_idempotent emptyClient "file:///a.hs" "main" "haskell").2.2 rfl⟩

/-- C7 counterexample: a hover response with null contents normalizes to the
empty string even though the result itself is not null, so the normalized
output is NOT empty exactly when the result is null (the spec itself fixes
this scenario: contents null normalizes to the empty string). -/
theorem hover_empty_not_only_null :
    normalizeHover (HoverResult.hover HoverContents.nullContents) = "" ∧
    HoverResult.hover HoverContents.nullContents ≠ HoverResult.nullResult := by
  refine ⟨rfl, ?_⟩
  decide

/-- C7 amended: the hover normalization always returns a single flattened
text string, and it returns the empty string whenever the result is null and
also when the contents are null (emptiness is not exclusive to a null
result). -/
theorem hover_normalization_null_empty (r : HoverResult) :
    (r = HoverResult.nullResult → normalizeHover r = "") ∧
    (r = HoverResult.hover HoverContents.nullContents → normalizeHover r = "") := by
  constructor <;> rintro rfl <;> rfl

theorem hover_normalization_null_empty_witness :
    normalizeHover HoverResult.nullResult = "" :=
  (hover_normalization_null_empty HoverResult.nullResult).1 rfl

/-- C8: for every valid framed byte sequence (a concatenation of encoded
messages) and every partition of it into contiguous chunks fed one at a time,
the framer produces the same ordered sequence of decoded messages as feeding
the entire byte sequence in a single chunk. -/
theorem framer_chunking_invariant (msgs : List (List Nat))
    (chunks : List (List Nat))
    (hvalid : chunks.flatten = Framer.encodeAll msgs) :
    (Framer.feedAll chunks).messages =
      (Framer.feedAll [chunks.flatten]).messages := by
  have h0 : Framer.extract (⟨[], []⟩ : Framer.FramerState).buffer = none := rfl
  rw [Framer.feedAll, Framer.foldl_feed chunks _ h0]
  rw [Framer.feedAll, Framer.foldl_feed [chunks.flatten] _ h0]
  simp

theorem framer_chunking_invariant_witness :
    ([[67, 111], [110, 116, 101, 110, 116, 45, 76, 101, 110, 103, 116, 104, 58,
        32, 50, 13, 10, 13, 10, 123, 125]] : List (List Nat)).flatten =
      Framer.encodeAll [[123, 125]] ∧
    (Framer.feedAll [[67, 111], [110, 116, 101, 110, 116, 45, 76, 101, 110, 103,
        116, 104, 58, 32, 50, 13, 10, 13, 10, 123, 125]]).messages =
      (Framer.feedAll [([[67, 111], [110, 116, 101, 110, 116, 45, 76, 101, 110,
        103, 116, 104, 58, 32, 50, 13, 10, 13, 10, 123, 125]] :
          List (List Nat)).flatten]).messages :=
  ⟨by decide, framer_chunking_invariant [[123, 125]] _ (by decide)⟩

end LspMcp
